import Mathlib

/-!
Verification of the swarm connection-metrics core of go-libp2p
(`p2p/net/swarm/swarm_metrics.go`) and the QUIC transport's functional-options
configuration, shallowly embedded in Lean 4.

Go `float64` values in the bucket generator only undergo doubling and
comparison, which are exact on the inputs in scope, so they are embedded as
rationals. Go `time.Duration` is an integer count of nanoseconds, embedded as
`ℤ`; `Duration.Milliseconds()` is truncating integer division by 10^6. The
direction enumeration of `core/network` is an integer with `DirUnknown = 0`,
`DirInbound = 1`, `DirOutbound = 2`; it is embedded as `ℕ`, with the `switch`
default covering every other value, as in the source.
-/

namespace Swarm

/-- The loop body of `exponentialDistribution`: `for d := min; d < 2*max; d *= 2`
appending `d` each iteration. The Go loop never terminates when the seed is
non-positive (the spec leaves that case undefined and requires callers to pass
positive seeds); the embedding returns `[]` there so the function is total.
For every positive `d` it follows the Go loop exactly. -/
def expLoop (max d : ℚ) : List ℚ :=
  if h : 0 < d ∧ d < 2 * max then
    d :: expLoop max (d * 2)
  else
    []
termination_by (⌈2 * max / d⌉).toNat
decreasing_by
  have hd : 0 < d := h.1
  have hx : 1 < 2 * max / d := (one_lt_div hd).mpr h.2
  have hrw : 2 * max / (d * 2) = (2 * max / d) / 2 := (div_div _ _ _).symm
  rw [hrw]
  set x : ℚ := 2 * max / d
  have hn2 : 2 ≤ ⌈x⌉ := by
    have : (1 : ℚ) < (⌈x⌉ : ℚ) := lt_of_lt_of_le hx (Int.le_ceil x)
    exact_mod_cast this
  have hle : ⌈x / 2⌉ ≤ ⌈x⌉ - 1 := by
    apply Int.ceil_le.mpr
    push_cast
    have hxle : x ≤ (⌈x⌉ : ℚ) := Int.le_ceil x
    have h2 : (2 : ℚ) ≤ (⌈x⌉ : ℚ) := by exact_mod_cast hn2
    nlinarith
  omega

/-- `exponentialDistribution(min, max)` from `swarm_metrics.go`. -/
def exponentialDistribution (min max : ℚ) : List ℚ :=
  expLoop max min

/-! ### Measures, tag keys, views -/

def metricNamespace : String := "swarm/"

/-- A `stats.Int64` measure: name, description and unit, as created in
`swarm_metrics.go`. `stats.UnitDimensionless` is the string `"1"` and
`stats.UnitMilliseconds` the string `"ms"`. -/
structure Measure where
  name : String
  description : String
  unit : String
deriving DecidableEq, Repr

def connsOpened : Measure :=
  ⟨metricNamespace ++ "connections_opened", "Connections Opened", "1"⟩

def connsClosed : Measure :=
  ⟨metricNamespace ++ "connections_closed", "Connections Closed", "1"⟩

def connDuration : Measure :=
  ⟨metricNamespace ++ "connection_duration", "Duration of a Connection", "ms"⟩

def connHandshakeLatency : Measure :=
  ⟨metricNamespace ++ "handshake_latency", "Duration of the libp2p handshake", "ms"⟩

/-- `tag.NewKey("dir")`: a tag key is identified by its name string. -/
def directionTag : String := "dir"

def transportTag : String := "transport"

def securityTag : String := "security"

def muxerTag : String := "muxer"

/-- `tag.Upsert(key, value)`: the only mutator kind the recorders build. -/
def upsert (key value : String) : String × String := (key, value)

inductive Aggregation where
  | sum : Aggregation
  | distribution : List ℚ → Aggregation
deriving DecidableEq

/-- An opencensus `view.View` as configured here: a measure, an aggregation
and the list of tag keys the view aggregates along. -/
structure View where
  measure : Measure
  aggregation : Aggregation
  tagKeys : List String

/-- Go `time.Duration` is an `int64` count of nanoseconds; `Milliseconds()`
divides by 10^6, truncating toward zero. -/
def durationMilliseconds (t : ℤ) : ℤ := Int.tdiv t 1000000

/-- `time.Hour` in nanoseconds. -/
def timeHour : ℤ := 3600 * 1000000000

def connDurationMilliseconds : List ℚ :=
  exponentialDistribution 250 ((durationMilliseconds (7 * 24 * timeHour) : ℤ) : ℚ)

def handshakeLatencyMilliseconds : List ℚ :=
  exponentialDistribution 1 (60 * 1000)

def connOpenView : View :=
  ⟨connsOpened, Aggregation.sum, [directionTag, transportTag, securityTag, muxerTag]⟩

def connClosedView : View :=
  ⟨connsClosed, Aggregation.sum, [directionTag, transportTag, securityTag, muxerTag]⟩

def connDurationView : View :=
  ⟨connDuration, Aggregation.distribution connDurationMilliseconds,
    [directionTag, transportTag, securityTag, muxerTag]⟩

def connHandshakeLatencyView : View :=
  ⟨connHandshakeLatency, Aggregation.distribution handshakeLatencyMilliseconds,
    [transportTag, securityTag, muxerTag]⟩

def DefaultViews : List View :=
  [connOpenView, connClosedView, connDurationView, connHandshakeLatencyView]

/-! ### Connection state tagging and the event recorders -/

/-- `network.Direction` from `core/network` is an integer enumeration:
`DirUnknown = 0`, `DirInbound = 1`, `DirOutbound = 2`. -/
def DirUnknown : ℕ := 0

def DirInbound : ℕ := 1

def DirOutbound : ℕ := 2

/-- `network.ConnectionState` fields read by the recorders (string protocol
identifiers; the empty string means the field was not set). -/
structure ConnectionState where
  Transport : String
  Security : String
  StreamMultiplexer : String
deriving DecidableEq, Repr

/-- `getDirection`: the `switch` over the direction enumeration; every value
other than outbound/inbound falls to the `default` arm. -/
def getDirection (dir : ℕ) : String :=
  if dir = DirOutbound then "outbound"
  else if dir = DirInbound then "inbound"
  else "unknown"

/-- `appendConnectionState`: appends the transport tag (with the `"unknown"`
fallback), then the security and muxer tags only when those fields are
non-empty. -/
def appendConnectionState (tags : List (String × String)) (cs : ConnectionState) :
    List (String × String) :=
  let tags1 :=
    if cs.Transport = "" then tags ++ [upsert transportTag "unknown"]
    else tags ++ [upsert transportTag cs.Transport]
  let tags2 :=
    if cs.Security ≠ "" then tags1 ++ [upsert securityTag cs.Security]
    else tags1
  if cs.StreamMultiplexer ≠ "" then tags2 ++ [upsert muxerTag cs.StreamMultiplexer]
  else tags2

/-- One call to `stats.RecordWithTags`: the measure observed, the recorded
value, and the tag mutators passed along. -/
structure Observation where
  measure : Measure
  value : ℤ
  tags : List (String × String)
deriving DecidableEq, Repr

def recordConnectionOpened (dir : ℕ) (cs : ConnectionState) : Observation :=
  ⟨connsOpened, 1, appendConnectionState [upsert directionTag (getDirection dir)] cs⟩

def recordConnectionClosed (dir : ℕ) (cs : ConnectionState) : Observation :=
  ⟨connsClosed, 1, appendConnectionState [upsert directionTag (getDirection dir)] cs⟩

def recordConnectionDuration (dir : ℕ) (t : ℤ) (cs : ConnectionState) : Observation :=
  ⟨connDuration, durationMilliseconds t,
    appendConnectionState [upsert directionTag (getDirection dir)] cs⟩

def recordHandshakeLatency (t : ℤ) (cs : ConnectionState) : Observation :=
  ⟨connHandshakeLatency, durationMilliseconds t, appendConnectionState [] cs⟩

/-- The recorders drop the `error` returned by `stats.RecordWithTags`; run
against an arbitrary engine, each returns normally whatever the engine does.
The engine is any function that may accept or reject an observation. -/
def recordConnectionOpenedRun (engine : Observation → Except String Unit)
    (dir : ℕ) (cs : ConnectionState) : Except String Unit :=
  let _ := engine (recordConnectionOpened dir cs)
  Except.ok ()

def recordConnectionClosedRun (engine : Observation → Except String Unit)
    (dir : ℕ) (cs : ConnectionState) : Except String Unit :=
  let _ := engine (recordConnectionClosed dir cs)
  Except.ok ()

def recordConnectionDurationRun (engine : Observation → Except String Unit)
    (dir : ℕ) (t : ℤ) (cs : ConnectionState) : Except String Unit :=
  let _ := engine (recordConnectionDuration dir t cs)
  Except.ok ()

def recordHandshakeLatencyRun (engine : Observation → Except String Unit)
    (t : ℤ) (cs : ConnectionState) : Except String Unit :=
  let _ := engine (recordHandshakeLatency t cs)
  Except.ok ()

end Swarm

namespace Quic

/-! ### The QUIC transport's functional-options configuration -/

/-- The `config` struct of the QUIC transport; Go zero values are `false`. -/
structure config where
  disableReuseport : Bool := false
  disableDraft29 : Bool := false
  metrics : Bool := false
deriving DecidableEq, Repr

/-- The Go type `Option = func(opts *config) error`: an option receives the
configuration, may mutate it, and may return an error. The embedding returns
the updated configuration together with `some` error message or `none`. -/
def Opt : Type := config → config × Option String

/-- `config.apply`: applies each option in order; the first option returning a
non-nil error aborts the loop and its error is returned, with the
configuration as the options so far (the failing one included) left it. -/
def config.apply (cfg : config) : List Opt → config × Option String
  | [] => (cfg, none)
  | o :: rest =>
    match o cfg with
    | (cfg1, some e) => (cfg1, some e)
    | (cfg1, none) => config.apply cfg1 rest

/-- The closure returned by `DisableReuseport()`. -/
def DisableReuseport : Opt :=
  fun cfg => ({ cfg with disableReuseport := true }, none)

/-- The closure returned by `DisableDraft29()`. -/
def DisableDraft29 : Opt :=
  fun cfg => ({ cfg with disableDraft29 := true }, none)

/-- The closure returned by `WithMetrics()`. -/
def WithMetrics : Opt :=
  fun cfg => ({ cfg with metrics := true }, none)

end Quic

namespace Swarm

/-! ### Helper lemmas about the bucket-generator loop -/

lemma expLoop_cons {max d : ℚ} (h1 : 0 < d) (h2 : d < 2 * max) :
    expLoop max d = d :: expLoop max (d * 2) := by
  rw [expLoop]
  simp [h1, h2]

lemma expLoop_nil {max d : ℚ} (h : ¬ (0 < d ∧ d < 2 * max)) :
    expLoop max d = [] := by
  rw [expLoop]
  simp [h]

/-- The Go loop produces exactly the doubling sequence `d, 2d, 4d, …` of all
terms strictly below `2·max`, in order: its output is `d·2^0, …, d·2^(n-1)`
where `n` cuts the terms off exactly at `2·max`. -/
lemma expLoop_char (max : ℚ) :
    ∀ d : ℚ, 0 < d →
      ∃ n, expLoop max d = (List.range n).map (fun k => d * 2 ^ k) ∧
        ∀ k, (d * 2 ^ k < 2 * max ↔ k < n) := by
  apply expLoop.induct max
    (motive := fun d => 0 < d →
      ∃ n, expLoop max d = (List.range n).map (fun k => d * 2 ^ k) ∧
        ∀ k, (d * 2 ^ k < 2 * max ↔ k < n))
  · intro d h ih _
    obtain ⟨n, htail, hiff⟩ := ih (by linarith [h.1])
    refine ⟨n + 1, ?_, ?_⟩
    · rw [expLoop_cons h.1 h.2, htail, List.range_succ_eq_map, List.map_cons,
        List.map_map]
      simp only [pow_zero, mul_one]
      congr 1
      apply List.map_congr_left
      intro k _
      simp only [Function.comp_apply, pow_succ]
      ring
    · intro k
      cases k with
      | zero =>
        simpa using h.2
      | succ j =>
        have : d * 2 ^ (j + 1) = d * 2 * 2 ^ j := by
          rw [pow_succ]; ring
        rw [this, hiff j]
        omega
  · intro d h hd
    refine ⟨0, by rw [expLoop_nil h]; simp, ?_⟩
    intro k
    simp only [Nat.not_lt_zero, iff_false, not_lt]
    have hge : 2 * max ≤ d := by
      by_contra hc
      exact h ⟨hd, by linarith⟩
    have h2k : (1 : ℚ) ≤ 2 ^ k := one_le_pow₀ (by norm_num)
    nlinarith

end Swarm

namespace Swarm

/-- Claim C1: for every positive `min` and `max`, `exponentialDistribution(min, max)`
returns exactly the doubling sequence `min, 2·min, 4·min, …` consisting of all
terms strictly less than `2·max`, in that order; in particular
`exponentialDistribution(250, 500) = [250, 500]`. -/
theorem exponentialDistribution_exact_terms (min max : ℚ)
    (hmin : 0 < min) (_hmax : 0 < max) :
    (∃ n, exponentialDistribution min max = (List.range n).map (fun k => min * 2 ^ k) ∧
        ∀ k, (min * 2 ^ k < 2 * max ↔ k < n)) ∧
    exponentialDistribution 250 500 = [250, 500] := by
  constructor
  · exact expLoop_char max min hmin
  · unfold exponentialDistribution
    rw [expLoop_cons (by norm_num) (by norm_num)]
    norm_num
    rw [expLoop_cons (by norm_num) (by norm_num)]
    norm_num
    rw [expLoop_nil (by norm_num)]

/-- Witness for claim C1 at `min = 250`, `max = 500`. -/
theorem exponentialDistribution_exact_terms_witness :
    exponentialDistribution 250 500 = [250, 500] :=
  (exponentialDistribution_exact_terms 250 500 (by norm_num) (by norm_num)).2

/-- Counterexample to claim C2: at `min = 250 < max = 500` (both positive) the
returned sequence ends at `500`, which is strictly below `2·max = 1000` — no
term of the sequence reaches or exceeds `2·max`. -/
theorem exponentialDistribution_last_cex :
    (0 : ℚ) < 250 ∧ (250 : ℚ) < 500 ∧
    (exponentialDistribution 250 500).getLast? = some 500 ∧
    ¬ (2 * 500 ≤ (500 : ℚ)) := by
  refine ⟨by norm_num, by norm_num, ?_, by norm_num⟩
  have h : exponentialDistribution 250 500 = [250, 500] := by
    unfold exponentialDistribution
    rw [expLoop_cons (by norm_num) (by norm_num)]
    norm_num
    rw [expLoop_cons (by norm_num) (by norm_num)]
    norm_num
    rw [expLoop_nil (by norm_num)]
  rw [h]
  rfl

/-- Claim C2 as amended: for all positive `min < max` the returned sequence has a
last element, and that last element is the greatest power-of-two multiple of
`min` strictly below `2·max`: it is below `2·max`, and its double — the first
power-of-two multiple of `min` to reach or exceed `2·max` — is excluded from
the sequence. -/
theorem exponentialDistribution_last_element (min max : ℚ)
    (hmin : 0 < min) (hlt : min < max) :
    ∃ l n, (exponentialDistribution min max).getLast? = some l ∧
      l = min * 2 ^ n ∧ l < 2 * max ∧ 2 * max ≤ l * 2 := by
  obtain ⟨n, hmap, hiff⟩ := expLoop_char max min hmin
  have hmax0 : 0 < max := lt_trans hmin hlt
  have hm2 : min < 2 * max := by linarith
  have h0n : 0 < n := (hiff 0).mp (by simpa using hm2)
  obtain ⟨m, rfl⟩ : ∃ m, n = m + 1 := ⟨n - 1, by omega⟩
  refine ⟨min * 2 ^ m, m, ?_, rfl, (hiff m).mpr (by omega), ?_⟩
  · rw [exponentialDistribution, hmap, List.range_succ, List.map_append]
    simp
  · have := (hiff (m + 1)).not.mpr (by omega)
    have heq : min * 2 ^ (m + 1) = min * 2 ^ m * 2 := by
      rw [pow_succ]; ring
    rw [heq] at this
    linarith [not_lt.mp this]

/-- Witness for the amended claim C2 at `min = 250`, `max = 500`. -/
theorem exponentialDistribution_last_element_witness :
    ∃ l n, (exponentialDistribution 250 500).getLast? = some l ∧
      l = 250 * 2 ^ n ∧ l < 2 * 500 ∧ 2 * 500 ≤ l * 2 :=
  exponentialDistribution_last_element 250 500 (by norm_num) (by norm_num)

/-- Counterexample to claim C3: for `min = 2 > 0` and `max = 1` the returned
sequence is empty, so it does not always have at least one element for an
arbitrary `max`. -/
theorem exponentialDistribution_nonempty_cex :
    (0 : ℚ) < 2 ∧ exponentialDistribution 2 1 = [] := by
  refine ⟨by norm_num, ?_⟩
  unfold exponentialDistribution
  rw [expLoop_nil (by norm_num)]

/-- Claim C3 as amended: for every `min > 0` and every `max`, the returned
sequence is strictly increasing (and the generating loop terminates, the
embedding being total there); it is non-empty provided `min < 2·max`, i.e.
whenever the very first loop test succeeds. -/
theorem exponentialDistribution_sorted_nonempty (min max : ℚ) (hmin : 0 < min) :
    List.Sorted (· < ·) (exponentialDistribution min max) ∧
      (min < 2 * max → exponentialDistribution min max ≠ []) := by
  obtain ⟨n, hmap, hiff⟩ := expLoop_char max min hmin
  constructor
  · rw [exponentialDistribution, hmap]
    rw [List.Sorted, List.pairwise_map]
    refine (List.pairwise_lt_range n).imp ?_
    intro a b hab
    have hp : (2 : ℚ) ^ a < 2 ^ b := pow_lt_pow_right₀ (by norm_num) hab
    exact mul_lt_mul_of_pos_left hp hmin
  · intro hlt2 hempty
    have h0n : 0 < n := (hiff 0).mp (by simpa using hlt2)
    rw [exponentialDistribution, hmap] at hempty
    simp [List.range_eq_nil] at hempty
    omega

/-- Witness for the amended claim C3 at `min = 250`, `max = 500`. -/
theorem exponentialDistribution_sorted_nonempty_witness :
    List.Sorted (· < ·) (exponentialDistribution 250 500) ∧
      ((250 : ℚ) < 2 * 500 → exponentialDistribution 250 500 ≠ []) :=
  exponentialDistribution_sorted_nonempty 250 500 (by norm_num)

end Swarm

namespace Swarm

lemma getDirection_mem (dir : ℕ) :
    getDirection dir ∈ ["outbound", "inbound", "unknown"] := by
  unfold getDirection
  split_ifs <;> simp

/-- Claim C4: for every direction and every `ConnectionState`, the tag set
built by the recorders contains a direction tag (key `dir`) whose value is one
of `"outbound"`, `"inbound"`, `"unknown"`; the transport tag carries the
reported transport identifier, or the literal `"unknown"` when that field is
empty; the security and muxer tags are present exactly when the corresponding
field is non-empty; and the closed/duration recorders build the same tag set
as the opened recorder. -/
theorem recorder_tags_shape (dir : ℕ) (cs : ConnectionState) :
    (∃ v, v ∈ ["outbound", "inbound", "unknown"] ∧
        (directionTag, v) ∈ (recordConnectionOpened dir cs).tags) ∧
    (transportTag, if cs.Transport = "" then "unknown" else cs.Transport) ∈
        (recordConnectionOpened dir cs).tags ∧
    ((∃ v, (securityTag, v) ∈ (recordConnectionOpened dir cs).tags) ↔
        cs.Security ≠ "") ∧
    ((∃ v, (muxerTag, v) ∈ (recordConnectionOpened dir cs).tags) ↔
        cs.StreamMultiplexer ≠ "") ∧
    (recordConnectionClosed dir cs).tags = (recordConnectionOpened dir cs).tags ∧
    ∀ t, (recordConnectionDuration dir t cs).tags = (recordConnectionOpened dir cs).tags := by
  refine ⟨⟨getDirection dir, getDirection_mem dir, ?_⟩, ?_, ?_, ?_, rfl, fun t => rfl⟩ <;>
  · simp only [recordConnectionOpened]
    unfold appendConnectionState upsert
    by_cases h1 : cs.Transport = "" <;> by_cases h2 : cs.Security = "" <;>
      by_cases h3 : cs.StreamMultiplexer = "" <;>
      simp [h1, h2, h3, directionTag, transportTag, securityTag, muxerTag]

/-- Counterexample to claim C5: the recorders tag the direction dimension under
the key `"dir"`, not `"direction"` — for the outbound tcp/tls/yamux connection
the produced tag keys are `dir, transport, security, muxer`, and no tag with
key `"direction"` exists. -/
theorem direction_tag_key_cex :
    (recordConnectionOpened DirOutbound ⟨"tcp", "tls", "yamux"⟩).tags.map Prod.fst =
      ["dir", "transport", "security", "muxer"] ∧
    "direction" ∉ (recordConnectionOpened DirOutbound ⟨"tcp", "tls", "yamux"⟩).tags.map Prod.fst := by
  constructor
  · rfl
  · decide

/-- Claim C5 as amended: for an outbound connection with transport `tcp`,
security `tls`, muxer `yamux`, `recordConnectionOpened` submits exactly one
observation of value 1 to `connections_opened`, and `recordConnectionDuration`
with elapsed 1500ms submits exactly one observation of value 1500 to
`connection_duration`, both tagged
`{dir: outbound, transport: tcp, security: tls, muxer: yamux}` — the tag keys
being named `dir`, `transport`, `security`, `muxer` (the direction dimension's
key is the string `"dir"`, not `"direction"`). -/
theorem record_outbound_tcp_tls_yamux :
    recordConnectionOpened DirOutbound ⟨"tcp", "tls", "yamux"⟩ =
      ⟨connsOpened, 1,
        [("dir", "outbound"), ("transport", "tcp"), ("security", "tls"), ("muxer", "yamux")]⟩ ∧
    recordConnectionDuration DirOutbound (1500 * 1000000) ⟨"tcp", "tls", "yamux"⟩ =
      ⟨connDuration, 1500,
        [("dir", "outbound"), ("transport", "tcp"), ("security", "tls"), ("muxer", "yamux")]⟩ ∧
    connsOpened.name = "swarm/connections_opened" ∧
    connDuration.name = "swarm/connection_duration" := by
  refine ⟨rfl, ?_, rfl, rfl⟩
  have hms : durationMilliseconds (1500 * 1000000) = 1500 := by decide
  simp only [recordConnectionDuration, hms]
  rfl

/-- Claim C6: for every elapsed time and every `ConnectionState`,
`recordHandshakeLatency` submits one observation of the elapsed time in whole
milliseconds to the `handshake_latency` measure, tagged only with
transport/security/muxer keys — its tag set never contains a direction tag
(neither key `"dir"` nor `"direction"`), and the handshake-latency view
declares only the transport, security and muxer tag keys. -/
theorem handshake_latency_no_direction (t : ℤ) (cs : ConnectionState) :
    (recordHandshakeLatency t cs).measure = connHandshakeLatency ∧
    (recordHandshakeLatency t cs).value = durationMilliseconds t ∧
    (∀ x ∈ (recordHandshakeLatency t cs).tags,
        x.1 ∈ [transportTag, securityTag, muxerTag]) ∧
    (∀ v, ("dir", v) ∉ (recordHandshakeLatency t cs).tags ∧
        ("direction", v) ∉ (recordHandshakeLatency t cs).tags) ∧
    connHandshakeLatencyView.tagKeys = [transportTag, securityTag, muxerTag] := by
  refine ⟨rfl, rfl, ?_, ?_, rfl⟩ <;>
  · simp only [recordHandshakeLatency]
    unfold appendConnectionState upsert
    by_cases h1 : cs.Transport = "" <;> by_cases h2 : cs.Security = "" <;>
      by_cases h3 : cs.StreamMultiplexer = "" <;>
      simp [h1, h2, h3, transportTag, securityTag, muxerTag]

/-- Claim C7: `DefaultViews` is exactly the four views, one per measure; the
opened/closed/duration views declare all four tag keys while the
handshake-latency view declares only transport/security/muxer; the two count
views aggregate by sum and the two distribution views use bucket boundaries
produced by `exponentialDistribution`, parameterized over 250ms to one week
(604800000ms) and over 1ms to 60s (60000ms); the resulting boundary lists are
written out explicitly. -/
theorem default_views_shape :
    DefaultViews = [connOpenView, connClosedView, connDurationView, connHandshakeLatencyView] ∧
    DefaultViews.length = 4 ∧
    DefaultViews.map (fun v => v.measure.name) =
      ["swarm/connections_opened", "swarm/connections_closed",
        "swarm/connection_duration", "swarm/handshake_latency"] ∧
    (DefaultViews.map (fun v => v.measure.name)).Nodup ∧
    connOpenView.aggregation = Aggregation.sum ∧
    connClosedView.aggregation = Aggregation.sum ∧
    connOpenView.tagKeys = [directionTag, transportTag, securityTag, muxerTag] ∧
    connClosedView.tagKeys = [directionTag, transportTag, securityTag, muxerTag] ∧
    connDurationView.tagKeys = [directionTag, transportTag, securityTag, muxerTag] ∧
    connHandshakeLatencyView.tagKeys = [transportTag, securityTag, muxerTag] ∧
    connDurationView.aggregation = Aggregation.distribution connDurationMilliseconds ∧
    connHandshakeLatencyView.aggregation =
      Aggregation.distribution handshakeLatencyMilliseconds ∧
    durationMilliseconds (7 * 24 * timeHour) = 604800000 ∧
    connDurationMilliseconds = exponentialDistribution 250 604800000 ∧
    handshakeLatencyMilliseconds = exponentialDistribution 1 (60 * 1000) ∧
    connDurationMilliseconds =
      [250, 500, 1000, 2000, 4000, 8000, 16000, 32000, 64000, 128000, 256000,
        512000, 1024000, 2048000, 4096000, 8192000, 16384000, 32768000,
        65536000, 131072000, 262144000, 524288000, 1048576000] ∧
    handshakeLatencyMilliseconds =
      [1, 2, 4, 8, 16, 32, 64, 128, 256, 512, 1024, 2048, 4096, 8192, 16384,
        32768, 65536] := by
  have hms : durationMilliseconds (7 * 24 * timeHour) = 604800000 := by decide
  have hcast : ((durationMilliseconds (7 * 24 * timeHour) : ℤ) : ℚ) = 604800000 := by
    rw [hms]; norm_num
  have hdur : connDurationMilliseconds =
      [250, 500, 1000, 2000, 4000, 8000, 16000, 32000, 64000, 128000, 256000,
        512000, 1024000, 2048000, 4096000, 8192000, 16384000, 32768000,
        65536000, 131072000, 262144000, 524288000, 1048576000] := by
    unfold connDurationMilliseconds exponentialDistribution
    rw [hcast]
    repeat (rw [expLoop]; norm_num)
  have hhs : handshakeLatencyMilliseconds =
      [1, 2, 4, 8, 16, 32, 64, 128, 256, 512, 1024, 2048, 4096, 8192, 16384,
        32768, 65536] := by
    unfold handshakeLatencyMilliseconds exponentialDistribution
    repeat (rw [expLoop]; norm_num)
  refine ⟨rfl, rfl, rfl, by decide, rfl, rfl, rfl, rfl, rfl, rfl, rfl, rfl, hms, ?_, rfl, hdur, hhs⟩
  unfold connDurationMilliseconds
  rw [hcast]

/-- Claim C8: none of the four recording operations can fail observably to the
caller — run against an arbitrary observation-submission engine, including one
that rejects the observation, each recorder discards the engine's result and
returns normally. -/
theorem recorders_never_fail (engine : Observation → Except String Unit)
    (dir : ℕ) (t : ℤ) (cs : ConnectionState) :
    recordConnectionOpenedRun engine dir cs = Except.ok () ∧
    recordConnectionClosedRun engine dir cs = Except.ok () ∧
    recordConnectionDurationRun engine dir t cs = Except.ok () ∧
    recordHandshakeLatencyRun engine t cs = Except.ok () :=
  ⟨rfl, rfl, rfl, rfl⟩

end Swarm

namespace Quic

/-- Claim C9: option application to the transport feature configuration is
idempotent per field — applying any of the three concrete options twice equals
applying it once — and order-independent across distinct fields: each pair of
distinct options commutes, in particular `[DisableReuseport, WithMetrics]`
equals `[WithMetrics, DisableReuseport]`, from every starting configuration. -/
theorem options_idempotent_commute (cfg : config) :
    config.apply cfg [DisableReuseport, DisableReuseport] =
      config.apply cfg [DisableReuseport] ∧
    config.apply cfg [DisableDraft29, DisableDraft29] =
      config.apply cfg [DisableDraft29] ∧
    config.apply cfg [WithMetrics, WithMetrics] =
      config.apply cfg [WithMetrics] ∧
    config.apply cfg [DisableReuseport, WithMetrics] =
      config.apply cfg [WithMetrics, DisableReuseport] ∧
    config.apply cfg [DisableReuseport, DisableDraft29] =
      config.apply cfg [DisableDraft29, DisableReuseport] ∧
    config.apply cfg [DisableDraft29, WithMetrics] =
      config.apply cfg [WithMetrics, DisableDraft29] :=
  ⟨rfl, rfl, rfl, rfl, rfl, rfl⟩

lemma apply_append_of_ok (l1 : List Opt) :
    ∀ (cfg : config) (l2 : List Opt), (config.apply cfg l1).2 = none →
      config.apply cfg (l1 ++ l2) = config.apply (config.apply cfg l1).1 l2 := by
  induction l1 with
  | nil =>
    intro cfg l2 _
    rfl
  | cons o rest ih =>
    intro cfg l2 h
    match ho : o cfg with
    | (c1, some e) =>
      exfalso
      rw [config.apply, ho] at h
      exact Option.some_ne_none e h
    | (c1, none) =>
      rw [List.cons_append, config.apply, ho]
      rw [config.apply, ho] at h ⊢
      exact ih c1 l2 h

/-- Claim C10: `config.apply` applies the options strictly in order; the first
option that returns an error aborts the loop and that error is returned, with
the configuration exactly as the options up to and including the failing one
left it (no rollback) and the remaining options never applied; with no failing
option — in particular for the empty list — `apply` returns a nil error. -/
theorem apply_in_order_first_error (cfg : config) :
    config.apply cfg [] = (cfg, none) ∧
    (∀ (pre : List Opt) (o : Opt) (post : List Opt) (c1 : config) (e : String),
      (config.apply cfg pre).2 = none →
      o (config.apply cfg pre).1 = (c1, some e) →
      config.apply cfg (pre ++ o :: post) = (c1, some e)) ∧
    (∀ (pre : List Opt) (o : Opt) (post : List Opt) (c1 : config),
      (config.apply cfg pre).2 = none →
      o (config.apply cfg pre).1 = (c1, none) →
      config.apply cfg (pre ++ o :: post) = config.apply c1 post) ∧
    (∀ (opts : List Opt), (∀ o ∈ opts, ∀ c, (o c).2 = none) →
      (config.apply cfg opts).2 = none) := by
  refine ⟨rfl, ?_, ?_, ?_⟩
  · intro pre o post c1 e hok hfail
    rw [apply_append_of_ok pre cfg (o :: post) hok, config.apply, hfail]
  · intro pre o post c1 hok hsucc
    rw [apply_append_of_ok pre cfg (o :: post) hok, config.apply, hsucc]
  · intro opts
    induction opts generalizing cfg with
    | nil => intro _; rfl
    | cons o rest ih =>
      intro hall
      match ho : o cfg with
      | (c1, some e) =>
        exfalso
        have := hall o (by simp) cfg
        rw [ho] at this
        exact Option.some_ne_none e this
      | (c1, none) =>
        rw [config.apply, ho]
        exact ih c1 (fun o' ho' c => hall o' (by simp [ho']) c)

/-- Witness for claim C10: starting from the zero configuration, a run of
`DisableReuseport`, then an option that sets the draft-29 field but fails with
"boom", then `WithMetrics`, stops at the failing option: the error is
returned, the mutations up to and including the failing option persist, and
`WithMetrics` is never applied. -/
theorem apply_in_order_first_error_witness :
    config.apply ⟨false, false, false⟩
        [DisableReuseport,
          (fun c => ({ c with disableDraft29 := true }, some "boom")),
          WithMetrics] =
      (⟨true, true, false⟩, some "boom") :=
  (apply_in_order_first_error ⟨false, false, false⟩).2.1
    [DisableReuseport]
    (fun c => ({ c with disableDraft29 := true }, some "boom"))
    [WithMetrics] ⟨true, true, false⟩ "boom" rfl rfl

end Quic
